import Mathlib

/-!
Verification of the `DescriptaStore` façade
(`descriptastorus/DescriptaStore.py`).

The Python façade composes a fixed-width columnar store (`raw.RawStore`),
a primary ordinal index (`MolFileIndex`), two optional kyotocabinet
secondary key stores and an optional pickled options blob into one
read-optimized object.  The façade itself (`DescriptaStore.py`) is
embedded here line by line; the collaborators (`raw.RawStore`,
`MolFileIndex`, kyotocabinet, Python builtins `int`/`eval`) are modelled
at their interface boundary.
-/

/-- One scalar cell of a descriptor row (numeric value or calculated flag). -/
inductive Scalar where
  | num (n : Int)
  | flag (b : Bool)
  deriving DecidableEq, Repr

/-- Python exception values that the façade can raise, by class and payload.
`stopIter` stands for Python StopIteration. -/
inductive PyErr where
  | valueError (msg : String)
  | keyError (key : String)
  | indexError (msg : String)
  | attributeError (attr : String)
  | typeError (msg : String)
  | stopIter
  | other (msg : String)
  deriving DecidableEq, Repr

/-- Modelled from the spec: the fixed-width columnar store (`raw.RawStore`,
not under src/).  Per §6 it exposes a row count, ordered column names and
row retrieval by ordinal. -/
structure RawStore where
  colnames : List String
  rows : List (List Scalar)
  deriving DecidableEq, Repr

/-- Modelled from the spec: the row count reported by the columnar store. -/
def RawStore.N (db : RawStore) : Nat := db.rows.length

/-- Modelled from the spec: `RawStore.get(ordinal)` returns the row at the
ordinal; an out-of-range ordinal fails with an OutOfRange error (§6, §7). -/
def RawStore.get (db : RawStore) (i : Int) : Except PyErr (List Scalar) :=
  if h : 0 ≤ i ∧ i.toNat < db.rows.length then
    .ok (db.rows.get ⟨i.toNat, h.2⟩)
  else
    .error (.indexError "row index out of range")

/-- One record of the primary ordinal index: the source data plus an
optional display name.  A record without a recorded name cannot be
unpacked as a `(moldata, name)` pair by the fallback scan. -/
inductive IndexEntry where
  | withName (mol : String) (nm : String)
  | noName (mol : String)
  deriving DecidableEq, Repr

/-- Modelled from the spec: the primary ordinal index (`MolFileIndex`, not
under src/).  Per §6 it maps each ordinal to the source record with an
optional name and supports full sequential iteration. -/
structure MolIndex where
  records : List IndexEntry
  deriving DecidableEq, Repr

/-- Modelled from the spec: `MolFileIndex.get(ordinal)`; out-of-range
ordinals fail with an OutOfRange error (§6, §7). -/
def MolIndex.get (idx : MolIndex) (i : Int) : Except PyErr IndexEntry :=
  if h : 0 ≤ i ∧ i.toNat < idx.records.length then
    .ok (idx.records.get ⟨i.toNat, h.2⟩)
  else
    .error (.indexError "mol index out of range")

/-- A kyotocabinet database file: a finite key to value map, modelled as an
association list (external collaborator, modelled at the `get` boundary:
`db[key]` returns the stored string or Python None when absent). -/
def KCDB : Type := List (String × String)

/-- kyotocabinet `db[key]`: last binding wins, absent keys give none. -/
def kcGet (db : KCDB) (key : String) : Option String :=
  db.foldl (fun acc p => if p.1 = key then some p.2 else acc) none

/-- Python dict lookup on the fallback name map: insertion order with
overwrite on duplicate keys, so the last binding wins. -/
def dictGet (m : List (String × Int)) (key : String) : Option Int :=
  m.foldl (fun acc p => if p.1 = key then some p.2 else acc) none

/-- Python dict lookup on the options blob (string keyed, string valued). -/
def dictGetStr (m : List (String × String)) (key : String) : Option String :=
  m.foldl (fun acc p => if p.1 = key then some p.2 else acc) none

/-- The value of the `self.name` attribute of the façade: a kyotocabinet
handle, the in-memory fallback dict built by `lookupName`, or Python None. -/
inductive NameVal where
  | kc (db : KCDB)
  | dict (m : List (String × Int))
  | none

/-- The state of the `self.inchikey` attribute.  `unset` is the Python
state in which `__init__` never executed an assignment to the attribute,
so reading it raises AttributeError. -/
inductive InchiAttr where
  | unset
  | assigned (h : Option KCDB)

/-- A reconstructed descriptor calculator (result of `MakeGenerator`). -/
structure Calc where
  names : List String
  deriving DecidableEq, Repr

/-- The substring test used at open time: Python `"_calculated" in name`
on the underlying character lists.  `leadsWith p l` is `l` starting with
`p`; `hasSubstr p l` is `p` occurring contiguously anywhere in `l`. -/
def leadsWith : List Char → List Char → Bool
  | [], _ => true
  | _ :: _, [] => false
  | p :: ps, c :: cs => p = c && leadsWith ps cs

/-- Whether `p` occurs contiguously anywhere inside `l`. -/
def hasSubstr (p : List Char) : List Char → Bool
  | [] => leadsWith p []
  | c :: cs => leadsWith p (c :: cs) || hasSubstr p (cs)

/-- Python `"_calculated" in name` from line 103 of `DescriptaStore.py`. -/
def containsCalc (nm : String) : Bool :=
  hasSubstr "_calculated".toList nm.toList

/-- The environment a store directory and its runtime present to
`DescriptaStore.__init__`: the two hard collaborators, whether
kyotocabinet is importable, the contents of `inchikey.kch` / `name.kch` /
`__options__` when those files exist, and the descriptor engine
(`MakeGenerator`, external; `genAvail` is `MakeGenerator is not None`). -/
structure Env where
  rawdb : RawStore
  molindex : MolIndex
  kyoto : Bool
  inchiFile : Option KCDB
  nameFile : Option KCDB
  optionsFile : Option (List (String × String))
  genAvail : Bool
  genFun : List String → Except PyErr Calc

/-- The façade object: the fields assigned by `DescriptaStore.__init__`
(lines 62-105).  `genAvail`/`genFun` carry the ambient module-level
`MakeGenerator` so that method bodies are closed terms. -/
structure DescriptaStore where
  db : RawStore
  index : MolIndex
  inchikey : InchiAttr
  name : NameVal
  options : Option (List (String × String))
  datanames : List String
  dataindices : List Nat
  genAvail : Bool
  genFun : List String → Except PyErr Calc

/-- Embeds `DescriptaStore.__init__` (lines 62-105).  The `inchikey` branch is
embedded exactly as written: when `inchikey.kch` exists but kyotocabinet
is not importable the code only prints a warning and assigns nothing, so
the attribute stays `unset`; when the file is absent the attribute is set
to None.  The `name` branch always assigns (None on both failure paths).
The data-column partition is `[(i,name) for i,name in enumerate(colnames)
if "_calculated" not in name]` split into names and indices. -/
def openStore (env : Env) : DescriptaStore :=
  let inchikey : InchiAttr :=
    match env.inchiFile with
    | some db => if env.kyoto then .assigned (some db) else .unset
    | none => .assigned none
  let nameV : NameVal :=
    match env.nameFile with
    | some db => if env.kyoto then .kc db else .none
    | none => .none
  let datacols := (env.rawdb.colnames.enum).filter (fun p => !containsCalc p.2)
  { db := env.rawdb
    index := env.molindex
    inchikey := inchikey
    name := nameV
    options := env.optionsFile
    datanames := datacols.map Prod.snd
    dataindices := datacols.map Prod.fst
    genAvail := env.genAvail
    genFun := env.genFun }

/-- Embeds `len(store)` (lines 117-118): the row count of the columnar store. -/
def storeLen (s : DescriptaStore) : Nat := s.db.N

/-- Python list indexing `v[j]` for a nonnegative `j`: IndexError when out
of range. -/
def pyListGet (v : List Scalar) (j : Nat) : Except PyErr Scalar :=
  match v.get? j with
  | some x => .ok x
  | Option.none => .error (.indexError "list index out of range")

/-- Left-to-right effectful map, the semantics of a Python list
comprehension over `Except`: stop at the first raised error. -/
def mapMExc (f : α → Except PyErr β) : List α → Except PyErr (List β)
  | [] => .ok []
  | a :: as =>
    match f a with
    | .error e => .error e
    | .ok b =>
      match mapMExc f as with
      | .error e => .error e
      | .ok bs => .ok (b :: bs)

/-- Embeds `DescriptaStore.getDescriptors` (lines 142-152): fetch the row; keep
it whole when `keepCalculatedFlags`, otherwise take
`[v[i] for i in self.dataindices]`. -/
def getDescriptors (s : DescriptaStore) (index : Int)
    (keepCalculatedFlags : Bool) : Except PyErr (List Scalar) :=
  match s.db.get index with
  | .error e => .error e
  | .ok v =>
    if keepCalculatedFlags then .ok v
    else mapMExc (pyListGet v) s.dataindices

/-- Embeds `DescriptaStore.getDescriptorNames` (lines 133-140): the full column
list (a copy) when flags are kept, else the cached data-column names. -/
def getDescriptorNames (s : DescriptaStore) (keepCalculatedFlags : Bool) :
    List String :=
  if keepCalculatedFlags then s.db.colnames else s.datanames

/-- The outcome of one `DescriptaStoreIter.next()` call (lines 24-33):
a yielded pair, StopIteration, or a re-raised fetch error after printing
the failing index (`fail` carries the printed index). -/
inductive NextRes where
  | yield (rec : IndexEntry) (vec : List Scalar)
  | stop
  | fail (printedIdx : Int) (e : PyErr)
  deriving DecidableEq, Repr

/-- The try-block of `next()` (line 30): evaluate
`self.store.index.get(self.i)` then `self.store.getDescriptors(self.i)`,
left to right. -/
def fetchPair (s : DescriptaStore) (i : Int) :
    Except PyErr (IndexEntry × List Scalar) :=
  match s.index.get i with
  | .error e => .error e
  | .ok r =>
    match getDescriptors s i false with
    | .error e => .error e
    | .ok v => .ok (r, v)

/-- Embeds `DescriptaStoreIter.next` (lines 24-33): increment `self.i`; raise
StopIteration when `self.i == len(self.store)`; else fetch the pair,
printing the failing index and re-raising on error.  Returns the updated
`self.i` together with the call outcome. -/
def iterNext (s : DescriptaStore) (st : Int) : Int × NextRes :=
  let i := st + 1
  (i,
    if i = (storeLen s : Int) then .stop
    else
      match fetchPair s i with
      | .ok (r, v) => .yield r v
      | .error e => .fail i e)

/-- The iterator state (`self.i`) after `k` calls to `next()` on the
fresh iterator returned by `DescriptaStore.__iter__` (initial `i = -1`,
lines 20-23 and 120-121). -/
def iterStateAfter (s : DescriptaStore) : Nat → Int
  | 0 => -1
  | k + 1 => (iterNext s (iterStateAfter s k)).1

/-- The outcome of the `(k+1)`-st call to `next()` (0-indexed `k`). -/
def iterResult (s : DescriptaStore) (k : Nat) : NextRes :=
  (iterNext s (iterStateAfter s k)).2

/-- The fallback scan of `lookupName` (lines 172-173):
`{name:i for i, (moldata, name) in enumerate(self.index)}`.  Unpacking a
record with no recorded name raises, aborting the scan; otherwise the
pairs are produced in ordinal order (dict overwrite = last wins, matched
by `dictGet`). -/
def buildNameMap (idx : MolIndex) : Except PyErr (List (String × Int)) :=
  mapMExc
    (fun p =>
      match p.2 with
      | .withName _ nm => .ok (nm, (p.1 : Int))
      | .noName _ => .error (.valueError "not enough values to unpack"))
    idx.records.enum

/-- The message of `IndexError("Name %r not found" % name)` (line 183). -/
def nameNotFoundMsg (key : String) : String :=
  "Name \x27" ++ key ++ "\x27 not found"

/-- Python `int(str)`: strip ASCII whitespace, optional sign, then a
nonempty digit run; anything else raises.  (Builtin, modelled at the
boundary; underscore separators are not used by the store.) -/
def pyIntOpt (v : String) : Option Int :=
  let cs := (v.toList.dropWhile (fun c => c = ' ' || c = '\t' || c = '\n')).reverse
  let cs := (cs.dropWhile (fun c => c = ' ' || c = '\t' || c = '\n')).reverse
  let core : List Char → Option Int := fun ds =>
    if ds ≠ [] && ds.all Char.isDigit then
      some (ds.foldl (fun a c => a * 10 + ((c.toNat : Int) - 48)) 0)
    else Option.none
  match cs with
  | '-' :: rest => (core rest).map (fun n => -n)
  | '+' :: rest => core rest
  | _ => core cs

/-- The lookup phase of `lookupName` on the fallback dict (lines 179-183):
`int(self.name[name])` under a bare except re-raised as the not-found
IndexError.  Dict values are already integers, so only an absent key
(KeyError from `self.name[name]`) can fail. -/
def dictPhase (m : List (String × Int)) (key : String) : Except PyErr Int :=
  match dictGet m key with
  | some i => .ok i
  | Option.none => .error (.indexError (nameNotFoundMsg key))

/-- The lookup phase of `lookupName` on a kyotocabinet handle (lines
179-183): `self.name[name]` yields None when absent (then `int(None)`
raises TypeError) or the stored string (then `int` may raise ValueError);
the bare except turns every such failure into the not-found IndexError. -/
def kcPhase (db : KCDB) (key : String) : Except PyErr Int :=
  match kcGet db key with
  | Option.none => .error (.indexError (nameNotFoundMsg key))
  | some v =>
    match pyIntOpt v with
    | some n => .ok n
    | Option.none => .error (.indexError (nameNotFoundMsg key))

/-- The result of one `lookupName` call: the returned row or raised
error, the façade afterwards (the call may assign `self.name`), and how
many times the fallback scan of the primary index was started. -/
structure NameLookupRes where
  result : Except PyErr Int
  store : DescriptaStore
  scans : Nat

/-- Embeds `DescriptaStore.lookupName` (lines 166-185).  When `self.name` is
None the fallback scan runs: on success the dict is assigned to
`self.name` and the lookup proceeds on it; on failure
`ValueError("Name index not available")` is raised and `self.name` stays
None.  Otherwise the existing handle or dict is used directly. -/
def lookupName (s : DescriptaStore) (key : String) : NameLookupRes :=
  match s.name with
  | .none =>
    match buildNameMap s.index with
    | .ok m =>
      { result := dictPhase m key
        store := { s with name := .dict m }
        scans := 1 }
    | .error _ =>
      { result := .error (.valueError "Name index not available")
        store := s
        scans := 1 }
  | .dict m => { result := dictPhase m key, store := s, scans := 0 }
  | .kc db => { result := kcPhase db key, store := s, scans := 0 }

/-- The value of a Python expression in the fragment of `eval` reachable
from stored content-key values: an integer, a set of integers or a list
of integers. -/
inductive EvalVal where
  | int (n : Int)
  | set (l : List Int)
  | list (l : List Int)
  deriving DecidableEq, Repr

/-- Drop leading ASCII spaces. -/
def skipWs : List Char → List Char
  | [] => []
  | c :: cs => if c = ' ' then skipWs cs else c :: cs

/-- Parse an optionally signed integer literal, returning the rest. -/
def parseIntLit (cs : List Char) : Option (Int × List Char) :=
  let cs := skipWs cs
  match cs with
  | '-' :: rest =>
    match List.span Char.isDigit rest with
    | (ds, rest2) =>
      if ds.isEmpty then Option.none
      else some (-(ds.foldl (fun a c => a * 10 + ((c.toNat : Int) - 48)) 0), rest2)
  | _ =>
    match List.span Char.isDigit cs with
    | (ds, rest2) =>
      if ds.isEmpty then Option.none
      else some (ds.foldl (fun a c => a * 10 + ((c.toNat : Int) - 48)) 0, rest2)

/-- Parse a nonempty comma-separated integer sequence closed by `close`,
requiring only trailing whitespace afterwards. -/
def parseElems (close : Char) : Nat → List Char → Option (List Int)
  | 0, _ => Option.none
  | fuel + 1, cs =>
    match parseIntLit cs with
    | Option.none => Option.none
    | some (n, rest) =>
      match skipWs rest with
      | [] => Option.none
      | c :: rest2 =>
        if c = ',' then
          match parseElems close fuel rest2 with
          | some ns => some (n :: ns)
          | Option.none => Option.none
        else if c = close then
          if (skipWs rest2).isEmpty then some [n] else Option.none
        else Option.none

/-- Modelled from the spec and line 194: the Python builtin `eval`
applied to a stored content-key value.  It executes the stored text as an
expression; modelled here on the forms the theorems use: integer
literals, set literals of integers, list literals of integers, and a
two-operand integer sum (the latter demonstrating that arithmetic in the
stored text is computed, not rejected).  Text outside this fragment is
represented by a generic evaluation error. -/
def pyEval (s : String) : Except PyErr EvalVal :=
  match skipWs s.toList with
  | [] => .error (.other "eval: unexpected EOF")
  | c :: rest =>
    if c = '\x7b' then
      match parseElems '\x7d' (rest.length + 1) rest with
      | some ns => .ok (.set ns)
      | Option.none => .error (.other "eval: invalid syntax")
    else if c = '[' then
      match parseElems ']' (rest.length + 1) rest with
      | some ns => .ok (.list ns)
      | Option.none => .error (.other "eval: invalid syntax")
    else
      match parseIntLit (c :: rest) with
      | Option.none => .error (.other "eval: invalid syntax")
      | some (n, rest2) =>
        match skipWs rest2 with
        | [] => .ok (.int n)
        | '+' :: rest3 =>
          match parseIntLit rest3 with
          | some (m, rest4) =>
            if (skipWs rest4).isEmpty then .ok (.int (n + m))
            else .error (.other "eval: invalid syntax")
          | Option.none => .error (.other "eval: invalid syntax")
        | _ => .error (.other "eval: invalid syntax")

/-- Embeds `DescriptaStore.lookupInchiKey` (lines 187-195).  Reading
`self.inchikey` in the `unset` state raises AttributeError; an assigned
None raises `ValueError("Inchi index not available")`; otherwise the
stored string for the key is fetched (None means KeyError) and passed to
`eval`. -/
def lookupInchiKey (s : DescriptaStore) (key : String) :
    Except PyErr EvalVal :=
  match s.inchikey with
  | .unset => .error (.attributeError "inchikey")
  | .assigned Option.none => .error (.valueError "Inchi index not available")
  | .assigned (some db) =>
    match kcGet db key with
    | Option.none => .error (.keyError key)
    | some strres => pyEval strres

/-- Whether a content-key handle is actually open on the façade. -/
def hasOpenInchiHandle (s : DescriptaStore) : Bool :=
  match s.inchikey with
  | .assigned (some _) => true
  | _ => false

/-- Which handles `close()` released before returning or raising. -/
structure CloseEffect where
  dbClosed : Bool
  indexClosed : Bool
  inchiClosed : Bool
  nameClosed : Bool
  deriving DecidableEq, Repr

/-- Embeds `DescriptaStore.close` (lines 108-115): close the columnar store and
the primary index, then `self.inchikey.close()` when the attribute is not
None (reading it in the `unset` state raises AttributeError), then
`self.name.close()` when not None (a fallback dict has no `close`, which
also raises AttributeError).  Returns what was released plus the raised
error, if any. -/
def closeRun (s : DescriptaStore) : CloseEffect × Option PyErr :=
  match s.inchikey with
  | .unset =>
    (⟨true, true, false, false⟩, some (.attributeError "inchikey"))
  | .assigned h =>
    let ic := h.isSome
    match s.name with
    | .none => (⟨true, true, ic, false⟩, Option.none)
    | .kc _ => (⟨true, true, ic, true⟩, Option.none)
    | .dict _ => (⟨true, true, ic, false⟩, some (.attributeError "close"))

/-- The try-body of `getDescriptorCalculator` (line 128):
`MakeGenerator(self.options['descriptors'].split(","))`.  Subscripting a
None options blob raises TypeError, a missing key raises KeyError, a None
`MakeGenerator` is not callable (TypeError), and the engine itself may
raise. -/
def getDescriptorCalculatorRaw (s : DescriptaStore) : Except PyErr Calc :=
  match s.options with
  | Option.none => .error (.typeError "NoneType object is not subscriptable")
  | some d =>
    match dictGetStr d "descriptors" with
    | Option.none => .error (.keyError "descriptors")
    | some v =>
      if s.genAvail then s.genFun (v.splitOn ",")
      else .error (.typeError "NoneType object is not callable")

/-- Embeds `DescriptaStore.getDescriptorCalculator` (lines 123-131): the try
body under a bare `except` returning None. -/
def getDescriptorCalculator (s : DescriptaStore) :
    Except PyErr (Option Calc) :=
  match getDescriptorCalculatorRaw s with
  | .ok c => .ok (some c)
  | .error _ => .ok Option.none

/-! ## Concrete stores used by the closed theorems and witnesses -/

/-- A store directory containing `inchikey.kch` opened in a runtime where
kyotocabinet is not importable. -/
def envInchiNoKyoto : Env :=
  { rawdb := ⟨["MW", "MW_calculated"], [[.num 12, .flag true]]⟩
    molindex := ⟨[.withName "CC" "A"]⟩
    kyoto := false
    inchiFile := some [("K", "\x7b1\x7d")]
    nameFile := Option.none
    optionsFile := Option.none
    genAvail := false
    genFun := fun _ => .error (.other "unavailable") }

/-- A store with an open content-key handle whose stored values include a
well-formed set encoding and a malformed one (`"1+1"`). -/
def envEvalStore : Env :=
  { rawdb := ⟨["MW"], [[.num 12]]⟩
    molindex := ⟨[.withName "CC" "A"]⟩
    kyoto := true
    inchiFile := some [("K", "1+1"), ("G", "\x7b3, 7, 9\x7d")]
    nameFile := Option.none
    optionsFile := Option.none
    genAvail := false
    genFun := fun _ => .error (.other "unavailable") }

/-- A store with no persistent name index whose primary index records
carry no names, so the fallback scan always fails. -/
def envNoNames : Env :=
  { rawdb := ⟨["MW"], [[.num 1]]⟩
    molindex := ⟨[.noName "CC"]⟩
    kyoto := false
    inchiFile := Option.none
    nameFile := Option.none
    optionsFile := Option.none
    genAvail := false
    genFun := fun _ => .error (.other "unavailable") }

/-- A store with no persistent name index whose primary index records all
carry names, so the fallback scan succeeds. -/
def envNamed : Env :=
  { rawdb := ⟨["MW"], [[.num 1], [.num 2]]⟩
    molindex := ⟨[.withName "CC" "A", .withName "CCC" "B"]⟩
    kyoto := false
    inchiFile := Option.none
    nameFile := Option.none
    optionsFile := Option.none
    genAvail := false
    genFun := fun _ => .error (.other "unavailable") }

/-- A store with a persistent name index handle holding one value that is
not an integer literal. -/
def envNameKC : Env :=
  { rawdb := ⟨["MW"], [[.num 1]]⟩
    molindex := ⟨[.withName "CC" "A"]⟩
    kyoto := true
    inchiFile := Option.none
    nameFile := some [("A", "xx"), ("B", "7")]
    optionsFile := Option.none
    genAvail := false
    genFun := fun _ => .error (.other "unavailable") }

/-- A store with three columns, one of them a calculation flag. -/
def envC5 : Env :=
  { rawdb := ⟨["MW", "MW_calculated", "LogP"],
      [[.num 12, .flag true, .num 3], [.num 5, .flag false, .num 9]]⟩
    molindex := ⟨[.withName "CC" "A", .withName "CCC" "B"]⟩
    kyoto := false
    inchiFile := Option.none
    nameFile := Option.none
    optionsFile := Option.none
    genAvail := false
    genFun := fun _ => .error (.other "unavailable") }

/-! ## Helper lemmas -/

lemma leadsWith_iff (p : List Char) : ∀ (l : List Char),
    leadsWith p l = true ↔ ∃ t, l = p ++ t := by
  induction p with
  | nil =>
    intro l
    simp [leadsWith]
  | cons a ps ih =>
    intro l
    cases l with
    | nil =>
      simp [leadsWith]
    | cons c cs =>
      simp only [leadsWith, Bool.and_eq_true, decide_eq_true_eq, ih cs,
        List.cons_append, List.cons.injEq]
      constructor
      · rintro ⟨h1, t, h2⟩
        exact ⟨t, h1.symm, h2⟩
      · rintro ⟨t, h1, h2⟩
        exact ⟨h1.symm, t, h2⟩

lemma hasSubstr_iff (p : List Char) : ∀ (l : List Char),
    hasSubstr p l = true ↔ ∃ u v, l = u ++ p ++ v := by
  intro l
  induction l with
  | nil =>
    simp only [hasSubstr, leadsWith_iff]
    constructor
    · rintro ⟨t, h⟩
      exact ⟨[], t, by simpa using h⟩
    · rintro ⟨u, v, h⟩
      have h3 : u = [] ∧ p = [] ∧ v = [] := by simpa using h.symm
      exact ⟨[], by simp [h3.2.1]⟩
  | cons c cs ih =>
    simp only [hasSubstr, Bool.or_eq_true, leadsWith_iff, ih]
    constructor
    · rintro (⟨t, h⟩ | ⟨u, v, h⟩)
      · exact ⟨[], t, by simpa using h⟩
      · exact ⟨c :: u, v, by simp [h]⟩
    · rintro ⟨u, v, h⟩
      cases u with
      | nil =>
        exact Or.inl ⟨v, by simpa using h⟩
      | cons d u2 =>
        simp only [List.cons_append, List.cons.injEq] at h
        exact Or.inr ⟨u2, v, h.2⟩

lemma enumFrom_fst_ge {α : Type _} (l : List α) :
    ∀ (n : Nat) (p : Nat × α), p ∈ List.enumFrom n l → n ≤ p.1 := by
  induction l with
  | nil => intro n p h; simp [List.enumFrom] at h
  | cons c cs ih =>
    intro n p h
    simp only [List.enumFrom, List.mem_cons] at h
    rcases h with h | h
    · simp [h]
    · exact Nat.le_of_succ_le (ih (n + 1) p h)

lemma enumFrom_fst_lt {α : Type _} (l : List α) :
    ∀ (n : Nat) (p : Nat × α), p ∈ List.enumFrom n l → p.1 < n + l.length := by
  induction l with
  | nil => intro n p h; simp [List.enumFrom] at h
  | cons c cs ih =>
    intro n p h
    simp only [List.enumFrom, List.mem_cons] at h
    rcases h with h | h
    · simp [h]
    · have := ih (n + 1) p h
      simp only [List.length_cons]
      omega

lemma enumFrom_pairwise {α : Type _} (l : List α) :
    ∀ (n : Nat), (List.enumFrom n l).Pairwise (fun a b => a.1 < b.1) := by
  induction l with
  | nil => intro n; simp [List.enumFrom]
  | cons c cs ih =>
    intro n
    simp only [List.enumFrom, List.pairwise_cons]
    exact ⟨fun p hp => Nat.lt_of_succ_le (enumFrom_fst_ge cs (n + 1) p hp),
      ih (n + 1)⟩

lemma mem_enumFrom_of_get? {α : Type _} (l : List α) :
    ∀ (n k : Nat) (a : α), l.get? k = some a → (n + k, a) ∈ List.enumFrom n l := by
  induction l with
  | nil => intro n k a h; simp at h
  | cons c cs ih =>
    intro n k a h
    cases k with
    | zero =>
      simp only [List.get?] at h
      cases h
      simp [List.enumFrom]
    | succ k =>
      simp only [List.get?] at h
      have := ih (n + 1) k a h
      simp only [List.enumFrom, List.mem_cons]
      right
      have hk : n + (k + 1) = (n + 1) + k := by omega
      rw [hk]
      exact this

lemma get?_of_mem_enumFrom {α : Type _} (l : List α) :
    ∀ (n : Nat) (p : Nat × α), p ∈ List.enumFrom n l →
      l.get? (p.1 - n) = some p.2 := by
  induction l with
  | nil => intro n p h; simp [List.enumFrom] at h
  | cons c cs ih =>
    intro n p h
    simp only [List.enumFrom, List.mem_cons] at h
    rcases h with h | h
    · simp [h]
    · have hge := enumFrom_fst_ge cs (n + 1) p h
      have := ih (n + 1) p h
      have hs : p.1 - n = (p.1 - (n + 1)) + 1 := by omega
      rw [hs]
      simpa using this

lemma zip_map_fst_snd {α β : Type _} : ∀ (L : List (α × β)),
    (L.map Prod.fst).zip (L.map Prod.snd) = L := by
  intro L
  induction L with
  | nil => simp
  | cons p ps ih => simp [ih]

lemma map_snd_enumFilter (q : String → Bool) (cs : List String) :
    ∀ (n : Nat),
      ((List.enumFrom n cs).filter (fun p => q p.2)).map Prod.snd
        = cs.filter q := by
  induction cs with
  | nil => intro n; simp [List.enumFrom]
  | cons c cs ih =>
    intro n
    simp only [List.enumFrom, List.filter_cons]
    by_cases hq : q c
    · simp [hq, ih (n + 1)]
    · simp [hq, ih (n + 1)]

lemma map_fst_zipFilter (q : String → Bool) (cs : List String) :
    ∀ (v : List Scalar), v.length = cs.length →
      ((cs.zip v).filter (fun p => q p.1)).map Prod.fst = cs.filter q := by
  induction cs with
  | nil => intro v hv; simp
  | cons c cs ih =>
    intro v hv
    cases v with
    | nil => simp at hv
    | cons x v2 =>
      simp only [List.length_cons, Nat.succ.injEq] at hv
      simp only [List.zip_cons_cons, List.filter_cons]
      by_cases hq : q c
      · simp [hq, ih v2 hv]
      · simp [hq, ih v2 hv]

lemma mapM_select (q : String → Bool) (cs : List String) :
    ∀ (v w : List Scalar), v.length = cs.length →
      mapMExc (pyListGet (w ++ v))
          (((List.enumFrom w.length cs).filter (fun p => q p.2)).map Prod.fst)
        = Except.ok (((cs.zip v).filter (fun p => q p.1)).map Prod.snd) := by
  induction cs with
  | nil =>
    intro v w hv
    rcases List.length_eq_zero.1 (by simpa using hv) with rfl
    simp [List.enumFrom, mapMExc]
  | cons c cs ih =>
    intro v w hv
    cases v with
    | nil => simp at hv
    | cons x v2 =>
      simp only [List.length_cons, Nat.succ.injEq] at hv
      have hget : pyListGet (w ++ x :: v2) w.length = .ok x := by
        have h1 : (w ++ x :: v2).get? w.length = some x := by
          rw [List.get?_append_right (Nat.le_refl w.length), Nat.sub_self]
          rfl
        unfold pyListGet
        rw [h1]
      have ih2 := ih v2 (w ++ [x]) hv
      have hlen : (w ++ [x]).length = w.length + 1 := by simp
      have happ : (w ++ [x]) ++ v2 = w ++ x :: v2 := by simp
      rw [hlen, happ] at ih2
      simp only [List.enumFrom, List.filter_cons]
      by_cases hq : q c
      · simp only [hq, if_pos, List.map_cons, mapMExc, hget, ih2,
          List.zip_cons_cons]
        simp [List.filter_cons, hq]
      · simp only [hq, Bool.false_eq_true, if_false, ih2,
          List.zip_cons_cons]
        simp [List.filter_cons, hq]

lemma iterStateAfter_eq (s : DescriptaStore) :
    ∀ (k : Nat), iterStateAfter s k = (k : Int) - 1 := by
  intro k
  induction k with
  | zero => simp [iterStateAfter]
  | succ k ih =>
    simp only [iterStateAfter, iterNext, ih]
    push_cast
    ring

@[simp] lemma openStore_db (env : Env) : (openStore env).db = env.rawdb := rfl

@[simp] lemma openStore_index (env : Env) :
    (openStore env).index = env.molindex := rfl

@[simp] lemma openStore_dataindices (env : Env) :
    (openStore env).dataindices
      = ((env.rawdb.colnames.enum).filter
          (fun p => !containsCalc p.2)).map Prod.fst := rfl

@[simp] lemma openStore_datanames (env : Env) :
    (openStore env).datanames
      = ((env.rawdb.colnames.enum).filter
          (fun p => !containsCalc p.2)).map Prod.snd := rfl

lemma containsCalc_iff (nm : String) :
    containsCalc nm = true ↔
      ∃ u v, nm.toList = u ++ "_calculated".toList ++ v :=
  hasSubstr_iff "_calculated".toList nm.toList

@[simp] lemma storeLen_openStore (env : Env) :
    storeLen (openStore env) = env.rawdb.rows.length := rfl

lemma iterResult_eq (s : DescriptaStore) (k : Nat) :
    iterResult s k =
      (if (k : Int) = (storeLen s : Int) then NextRes.stop
       else
         match fetchPair s (k : Int) with
         | .ok (r, v) => NextRes.yield r v
         | .error e => NextRes.fail (k : Int) e) := by
  unfold iterResult
  rw [iterStateAfter_eq]
  have h1 : (k : Int) - 1 + 1 = (k : Int) := by ring
  simp only [iterNext, h1]

/-! ## Claim theorems -/

/-- C1: the claim requires `lookupInchiKey` to reject a stored value that
is not a valid encoding of a collection of ordinals with a
data-corruption error, never executing the stored text and never
returning a partial result.  The code instead passes the stored text to
`eval` (line 194): on the malformed stored value `"1+1"` the expression
is executed and the integer `2` is returned with no error at all. -/
theorem lookupInchiKey_executes_stored_text :
    lookupInchiKey (openStore envEvalStore) "K" = .ok (.int 2) := by
  rfl

/-- C2: `inchikey.kch` exists but kyotocabinet is unavailable.  Open
succeeds and leaves `self.inchikey` literally unset (lines 66-77 assign
nothing on that path), so the claimed "feature unavailable" ValueError
never happens: `lookupInchiKey` instead raises AttributeError when it
reads the missing attribute (line 189). -/
theorem lookupInchiKey_attributeError_when_kyoto_missing :
    (openStore envInchiNoKyoto).inchikey = InchiAttr.unset ∧
    lookupInchiKey (openStore envInchiNoKyoto) "ANY"
      = .error (.attributeError "inchikey") := by
  exact ⟨rfl, rfl⟩

/-- C7: on the same façade (opened with `inchikey.kch` present but
kyotocabinet missing), `close()` closes the columnar store and the
primary index and then raises AttributeError at `self.inchikey is not
None` (line 111), releasing no secondary handle — contradicting the
claim that close releases everything opened and does not raise. -/
theorem close_raises_when_inchikey_attr_unset :
    closeRun (openStore envInchiNoKyoto)
      = (⟨true, true, false, false⟩, some (.attributeError "inchikey")) := by
  rfl

/-- C8: `getDescriptorCalculator` wraps its whole body in a bare
`except` returning None (lines 127-131): the call never raises, and each
failure mode — options blob absent, `descriptors` field absent,
`MakeGenerator` unavailable, or any error from the raw body — yields the
explicit absent result None. -/
theorem getDescriptorCalculator_never_raises (s : DescriptaStore) :
    (∃ r, getDescriptorCalculator s = .ok r) ∧
    (s.options = Option.none →
      getDescriptorCalculator s = .ok Option.none) ∧
    (∀ d, s.options = some d → dictGetStr d "descriptors" = Option.none →
      getDescriptorCalculator s = .ok Option.none) ∧
    (s.genAvail = false →
      getDescriptorCalculator s = .ok Option.none) ∧
    (∀ e, getDescriptorCalculatorRaw s = .error e →
      getDescriptorCalculator s = .ok Option.none) := by
  refine ⟨?_, ?_, ?_, ?_, ?_⟩
  · cases h : getDescriptorCalculatorRaw s with
    | ok c => exact ⟨some c, by simp [getDescriptorCalculator, h]⟩
    | error e => exact ⟨Option.none, by simp [getDescriptorCalculator, h]⟩
  · intro h
    simp [getDescriptorCalculator, getDescriptorCalculatorRaw, h]
  · intro d hd hk
    simp [getDescriptorCalculator, getDescriptorCalculatorRaw, hd, hk]
  · intro hg
    cases ho : s.options with
    | none => simp [getDescriptorCalculator, getDescriptorCalculatorRaw, ho]
    | some d =>
      cases hk : dictGetStr d "descriptors" with
      | none =>
        simp [getDescriptorCalculator, getDescriptorCalculatorRaw, ho, hk]
      | some v =>
        simp [getDescriptorCalculator, getDescriptorCalculatorRaw, ho, hk, hg]
  · intro e he
    simp [getDescriptorCalculator, he]

/-- Witness for C8 at a concrete store with no options blob. -/
theorem getDescriptorCalculator_never_raises_witness :
    getDescriptorCalculator (openStore envEvalStore) = .ok Option.none :=
  (getDescriptorCalculator_never_raises (openStore envEvalStore)).2.1 rfl

/-- C9: once a name mapping is available on the façade, `lookupName`
wraps `int(self.name[name])` in a bare except raising
`IndexError("Name %r not found" % name)` (lines 179-183).  So an absent
key, a stored value that `int` cannot decode, or the absent-key None from
a kyotocabinet handle are all reported as exactly the same not-found
error naming the lookup key, never as a data-corruption error. -/
theorem lookupName_decode_failure_is_not_found
    (s : DescriptaStore) (key : String) :
    (∀ db, s.name = NameVal.kc db →
      (kcGet db key = Option.none →
        (lookupName s key).result
          = .error (.indexError (nameNotFoundMsg key))) ∧
      (∀ v, kcGet db key = some v → pyIntOpt v = Option.none →
        (lookupName s key).result
          = .error (.indexError (nameNotFoundMsg key)))) ∧
    (∀ m, s.name = NameVal.dict m → dictGet m key = Option.none →
      (lookupName s key).result
        = .error (.indexError (nameNotFoundMsg key))) := by
  constructor
  · intro db hdb
    constructor
    · intro habs
      simp [lookupName, hdb, kcPhase, habs]
    · intro v hv hint
      simp [lookupName, hdb, kcPhase, hv, hint]
  · intro m hm habs
    simp [lookupName, hm, dictPhase, habs]

/-- Witness for C9: the persistent handle of `envNameKC` stores the
undecodable value `"xx"` under `"A"`; the lookup fails with the
not-found IndexError naming `"A"`. -/
theorem lookupName_decode_failure_is_not_found_witness :
    (lookupName (openStore envNameKC) "A").result
      = .error (.indexError (nameNotFoundMsg "A")) :=
  ((lookupName_decode_failure_is_not_found
        (openStore envNameKC) "A").1
      [("A", "xx"), ("B", "7")] rfl).2 "xx" (by decide) (by decide)

/-- C6 counterexample: a reachable façade state with no open content-key
handle (`inchikey.kch` present, kyotocabinet missing, so the attribute is
unset) in which `lookupInchiKey` fails with AttributeError instead of the
claimed "feature unavailable" ValueError. -/
theorem lookupInchiKey_no_handle_not_valueError :
    hasOpenInchiHandle (openStore envInchiNoKyoto) = false ∧
    lookupInchiKey (openStore envInchiNoKyoto) "QQ"
      = .error (.attributeError "inchikey") ∧
    PyErr.attributeError "inchikey" ≠ PyErr.valueError "Inchi index not available" := by
  exact ⟨rfl, rfl, by decide⟩

/-- C6 (amended): `lookupInchiKey` dispatch (lines 187-195).  With the
attribute assigned None (sub-path absent at open) the call fails with the
feature-unavailable ValueError; with the attribute unset (sub-path
present, backend missing) it fails with AttributeError; with an open
handle, an absent key fails with the not-found KeyError and a present key
whose stored text evaluates to a set of ordinals returns exactly that
set.  A call without an open handle never fails with the not-found
KeyError. -/
theorem lookupInchiKey_dispatch (s : DescriptaStore) (key : String) :
    (s.inchikey = InchiAttr.assigned Option.none →
      lookupInchiKey s key = .error (.valueError "Inchi index not available")) ∧
    (s.inchikey = InchiAttr.unset →
      lookupInchiKey s key = .error (.attributeError "inchikey")) ∧
    (∀ db, s.inchikey = InchiAttr.assigned (some db) →
      kcGet db key = Option.none →
      lookupInchiKey s key = .error (.keyError key)) ∧
    (∀ db enc S, s.inchikey = InchiAttr.assigned (some db) →
      kcGet db key = some enc → pyEval enc = .ok (.set S) →
      lookupInchiKey s key = .ok (.set S)) ∧
    (∀ k2, hasOpenInchiHandle s = false →
      lookupInchiKey s key ≠ .error (.keyError k2)) := by
  refine ⟨?_, ?_, ?_, ?_, ?_⟩
  · intro h
    simp [lookupInchiKey, h]
  · intro h
    simp [lookupInchiKey, h]
  · intro db hdb habs
    simp [lookupInchiKey, hdb, habs]
  · intro db enc S hdb henc heval
    simp [lookupInchiKey, hdb, henc, heval]
  · intro k2 hno
    cases hik : s.inchikey with
    | unset => simp [lookupInchiKey, hik]
    | assigned h =>
      cases h with
      | none => simp [lookupInchiKey, hik]
      | some db => simp [hasOpenInchiHandle, hik] at hno

/-- Witness for the amended C6: the open handle of `envEvalStore` maps
`"G"` to the set encoding of 3, 7, 9 and the lookup returns exactly that
set. -/
theorem lookupInchiKey_dispatch_witness :
    lookupInchiKey (openStore envEvalStore) "G" = .ok (.set [3, 7, 9]) :=
  (lookupInchiKey_dispatch (openStore envEvalStore) "G").2.2.2.1
    [("K", "1+1"), ("G", "\x7b3, 7, 9\x7d")] "\x7b3, 7, 9\x7d" [3, 7, 9]
    rfl (by decide) (by rfl)

/-- C4 counterexample: with no persistent name handle and an index with
no recorded names, the fallback scan fails, `self.name` stays None, and
the very next `lookupName` call runs the scan again — two scans on one
façade, refuting "the scan runs at most once per façade". -/
theorem lookupName_failed_scan_reruns :
    ¬ ((lookupName (openStore envNoNames) "A").scans
        + (lookupName (lookupName (openStore envNoNames) "A").store "A").scans
        ≤ 1) := by
  decide

/-- C4 (amended): the fallback behaviour of `lookupName` (lines
166-185).  With `self.name` None, a successful scan assigns the built
dict so later calls reuse it with no further scan and no state change;
the successful scan therefore runs at most once per façade.  A failed
scan raises the feature-unavailable ValueError — a different error class
from the not-found IndexError — and leaves the façade unchanged, so a
later call scans again.  Calls with an existing handle or dict never
scan. -/
theorem lookupName_fallback_scan_caching
    (s : DescriptaStore) (key key2 : String) :
    (∀ m, s.name = NameVal.none → buildNameMap s.index = .ok m →
      (lookupName s key).scans = 1 ∧
      (lookupName s key).store.name = NameVal.dict m ∧
      (lookupName (lookupName s key).store key2).scans = 0 ∧
      (lookupName (lookupName s key).store key2).store
        = (lookupName s key).store) ∧
    (∀ e, s.name = NameVal.none → buildNameMap s.index = .error e →
      (lookupName s key).result = .error (.valueError "Name index not available") ∧
      (lookupName s key).store = s ∧
      (lookupName s key).scans = 1) ∧
    (∀ m, s.name = NameVal.dict m →
      (lookupName s key).scans = 0 ∧ (lookupName s key).store = s) ∧
    (∀ db, s.name = NameVal.kc db →
      (lookupName s key).scans = 0 ∧ (lookupName s key).store = s) ∧
    (∀ msg, PyErr.valueError "Name index not available"
      ≠ PyErr.indexError msg) := by
  refine ⟨?_, ?_, ?_, ?_, ?_⟩
  · intro m hn hb
    simp [lookupName, hn, hb]
  · intro e hn hb
    simp [lookupName, hn, hb]
  · intro m hm
    simp [lookupName, hm]
  · intro db hdb
    simp [lookupName, hdb]
  · intro msg
    simp

/-- Witness for the amended C4: on `envNamed` the scan succeeds on the
first call, is cached, and the second call does not scan. -/
theorem lookupName_fallback_scan_caching_witness :
    (lookupName (openStore envNamed) "B").scans = 1 ∧
    (lookupName (openStore envNamed) "B").store.name
      = NameVal.dict [("A", 0), ("B", 1)] ∧
    (lookupName (lookupName (openStore envNamed) "B").store "A").scans = 0 ∧
    (lookupName (lookupName (openStore envNamed) "B").store "A").store
      = (lookupName (openStore envNamed) "B").store :=
  (lookupName_fallback_scan_caching (openStore envNamed) "B" "A").1
    [("A", 0), ("B", 1)] rfl (by rfl)

/-- C10: the partition computed at open (line 103) excludes a column
exactly when its name contains the substring `"_calculated"` anywhere,
the cached indices are strictly increasing so kept columns stay in
declared order, the cached names are the column names at the cached
indices, and the one state-mutating operation of the façade
(`lookupName`) leaves the cached partition unchanged. -/
theorem data_column_partition (env : Env) (s : DescriptaStore) (key : String) :
    ((openStore env).dataindices.Pairwise (fun a b => a < b)) ∧
    (∀ k nm, env.rawdb.colnames.get? k = some nm →
      (k ∈ (openStore env).dataindices ↔
        ¬ ∃ u v, nm.toList = u ++ "_calculated".toList ++ v)) ∧
    ((openStore env).datanames
      = (openStore env).dataindices.map
          (fun k => env.rawdb.colnames.getD k "")) ∧
    ((lookupName s key).store.datanames = s.datanames ∧
      (lookupName s key).store.dataindices = s.dataindices) := by
  refine ⟨?_, ?_, ?_, ?_⟩
  · have h1 := enumFrom_pairwise env.rawdb.colnames 0
    have h2 : ((List.enumFrom 0 env.rawdb.colnames).filter
        (fun p => !containsCalc p.2)).Pairwise (fun a b => a.1 < b.1) :=
      List.Pairwise.sublist (List.filter_sublist _) h1
    simp only [openStore_dataindices, List.enum]
    exact (List.pairwise_map).2 h2
  · intro k nm hget
    simp only [openStore_dataindices, List.enum]
    rw [← containsCalc_iff]
    constructor
    · intro hk
      rcases List.mem_map.1 hk with ⟨p, hpmem, hpfst⟩
      rcases List.mem_filter.1 hpmem with ⟨hpenum, hq⟩
      have hsnd := get?_of_mem_enumFrom env.rawdb.colnames 0 p hpenum
      simp only [Nat.sub_zero] at hsnd
      rw [hpfst, hget] at hsnd
      cases hsnd
      simp only [Bool.not_eq_eq_eq_not, Bool.not_true] at hq
      simp [hq]
    · intro hnc
      have hq : containsCalc nm = false := by
        cases h : containsCalc nm with
        | false => rfl
        | true => exact absurd h hnc
      refine List.mem_map.2 ⟨(k, nm), List.mem_filter.2 ⟨?_, ?_⟩, rfl⟩
      · have := mem_enumFrom_of_get? env.rawdb.colnames 0 k nm hget
        simpa using this
      · simp [hq]
  · simp only [openStore_datanames, openStore_dataindices, List.map_map]
    refine (List.map_congr_left ?_).symm
    intro p hp
    rcases List.mem_filter.1 hp with ⟨hpenum, _⟩
    have hsnd := get?_of_mem_enumFrom env.rawdb.colnames 0 p
      (by simpa [List.enum] using hpenum)
    simp only [Nat.sub_zero] at hsnd
    have hsnd2 : env.rawdb.colnames[p.1]? = some p.2 := by
      rw [← List.get?_eq_getElem?]
      exact hsnd
    simp [Function.comp, List.getD_eq_getD_get?, hsnd2]
  · cases hn : s.name with
    | none =>
      cases hb : buildNameMap s.index with
      | ok m => simp [lookupName, hn, hb]
      | error e => simp [lookupName, hn, hb]
    | dict m => simp [lookupName, hn]
    | kc db => simp [lookupName, hn]

/-- Witness for C10 at a concrete column list: the flag column (index 1)
is excluded, a data column (index 0) is kept. -/
theorem data_column_partition_witness :
    ((openStore envC5).dataindices.Pairwise (fun a b => a < b)) ∧
    (1 ∈ (openStore envC5).dataindices ↔
      ¬ ∃ u v, "MW_calculated".toList = u ++ "_calculated".toList ++ v) ∧
    (0 ∈ (openStore envC5).dataindices ↔
      ¬ ∃ u v, "MW".toList = u ++ "_calculated".toList ++ v) :=
  ⟨(data_column_partition envC5 (openStore envC5) "A").1,
   (data_column_partition envC5 (openStore envC5) "A").2.1 1 "MW_calculated" rfl,
   (data_column_partition envC5 (openStore envC5) "A").2.1 0 "MW" rfl⟩

/-- C5: for a valid ordinal whose row has one value per declared column,
the flags-excluded result of `getDescriptors` is the positional
subsequence of the flags-included row at the non-flag columns, has
exactly as many values as the cached data-column names, and for either
flag setting `getDescriptorNames` agrees in length and position with the
value sequence (the zip of names with values is exactly the column-value
pairing of the row, filtered for the flags-excluded case). -/
theorem flag_filtering (env : Env) (i : Int) (h0 : 0 ≤ i)
    (hN : i.toNat < env.rawdb.rows.length)
    (hv : (env.rawdb.rows.getD i.toNat []).length
      = env.rawdb.colnames.length) :
    ∃ full ex,
      getDescriptors (openStore env) i true = .ok full ∧
      getDescriptors (openStore env) i false = .ok ex ∧
      full = env.rawdb.rows.getD i.toNat [] ∧
      ex.Sublist full ∧
      ex.length = (openStore env).datanames.length ∧
      (getDescriptorNames (openStore env) false).length = ex.length ∧
      (getDescriptorNames (openStore env) false).zip ex
        = (env.rawdb.colnames.zip full).filter (fun p => !containsCalc p.1) ∧
      (getDescriptorNames (openStore env) true).length = full.length ∧
      (getDescriptorNames (openStore env) true).zip full
        = env.rawdb.colnames.zip full := by
  have hrow : env.rawdb.rows.getD i.toNat []
      = env.rawdb.rows.get ⟨i.toNat, hN⟩ :=
    List.getD_eq_get env.rawdb.rows [] hN
  have hget : RawStore.get env.rawdb i
      = .ok (env.rawdb.rows.getD i.toNat []) := by
    rw [hrow]
    simp [RawStore.get, h0, hN]
  have hsel := mapM_select (fun nm => !containsCalc nm)
    env.rawdb.colnames (env.rawdb.rows.getD i.toNat []) [] hv
  simp only [List.nil_append, List.length_nil] at hsel
  have hnamesF : (getDescriptorNames (openStore env) false)
      = env.rawdb.colnames.filter (fun nm => !containsCalc nm) := by
    simp only [getDescriptorNames, if_neg (by simp : ¬ false = true),
      openStore_datanames, List.enum]
    exact map_snd_enumFilter (fun nm => !containsCalc nm) env.rawdb.colnames 0
  have hfst := map_fst_zipFilter (fun nm => !containsCalc nm)
    env.rawdb.colnames (env.rawdb.rows.getD i.toNat []) hv
  refine ⟨env.rawdb.rows.getD i.toNat [],
    ((env.rawdb.colnames.zip (env.rawdb.rows.getD i.toNat [])).filter
      (fun p => !containsCalc p.1)).map Prod.snd,
    ?_, ?_, rfl, ?_, ?_, ?_, ?_, ?_, ?_⟩
  · simp [getDescriptors, hget]
  · simp only [getDescriptors, openStore_db, hget, if_neg
      (by simp : ¬ false = true), openStore_dataindices, List.enum]
    exact hsel
  · have hsub : (((env.rawdb.colnames.zip
        (env.rawdb.rows.getD i.toNat [])).filter
          (fun p => !containsCalc p.1)).map Prod.snd).Sublist
        (((env.rawdb.colnames.zip (env.rawdb.rows.getD i.toNat []))).map
          Prod.snd) :=
      List.Sublist.map Prod.snd (List.filter_sublist _)
    rwa [List.map_snd_zip env.rawdb.colnames _ (le_of_eq hv)] at hsub
  · rw [openStore_datanames]
    have h1 : (((env.rawdb.colnames.enum).filter
        (fun p => !containsCalc p.2)).map Prod.snd)
        = env.rawdb.colnames.filter (fun nm => !containsCalc nm) := by
      simp only [List.enum]
      exact map_snd_enumFilter (fun nm => !containsCalc nm) env.rawdb.colnames 0
    rw [h1, ← hfst, List.length_map, List.length_map]
  · rw [hnamesF, ← hfst, List.length_map, List.length_map]
  · rw [hnamesF, ← hfst]
    exact zip_map_fst_snd _
  · have hn : (getDescriptorNames (openStore env) true) = env.rawdb.colnames := by
      simp [getDescriptorNames]
    rw [hn]
    exact hv.symm
  · simp [getDescriptorNames]

/-- Witness for C5 at row 0 of `envC5` (columns `MW`, `MW_calculated`,
`LogP`). -/
theorem flag_filtering_witness :
    ∃ full ex,
      getDescriptors (openStore envC5) 0 true = .ok full ∧
      getDescriptors (openStore envC5) 0 false = .ok ex ∧
      full = envC5.rawdb.rows.getD (0 : Int).toNat [] ∧
      ex.Sublist full ∧
      ex.length = (openStore envC5).datanames.length ∧
      (getDescriptorNames (openStore envC5) false).length = ex.length ∧
      (getDescriptorNames (openStore envC5) false).zip ex
        = (envC5.rawdb.colnames.zip full).filter (fun p => !containsCalc p.1) ∧
      (getDescriptorNames (openStore envC5) true).length = full.length ∧
      (getDescriptorNames (openStore envC5) true).zip full
        = envC5.rawdb.colnames.zip full :=
  flag_filtering envC5 0 (by decide) (by decide) (by decide)

/-- C3: on a store of `N` rows whose primary index has one record per
ordinal and whose rows are full width, the `(k+1)`-st call of the
iterator's `next` yields the pair (source record, flags-excluded
descriptor vector) for ordinal `k` for every `k < N`, the call after the
last row signals StopIteration (a distinct outcome, not an error), and
whenever a call ends in a re-raised fetch error the reported index is
exactly the ordinal whose fetch failed. -/
theorem iteration_yields_all (env : Env)
    (hrec : env.molindex.records.length = env.rawdb.rows.length)
    (hrows : ∀ r ∈ env.rawdb.rows,
      r.length = env.rawdb.colnames.length) :
    (∀ k, k < storeLen (openStore env) →
      ∃ r v, iterResult (openStore env) k = NextRes.yield r v ∧
        MolIndex.get (openStore env).index (k : Int) = .ok r ∧
        getDescriptors (openStore env) (k : Int) false = .ok v) ∧
    iterResult (openStore env) (storeLen (openStore env)) = NextRes.stop ∧
    (∀ (s2 : DescriptaStore) (k : Nat) (j : Int) (e : PyErr),
      iterResult s2 k = NextRes.fail j e → j = (k : Int)) := by
  refine ⟨?_, ?_, ?_⟩
  · intro k hk
    have hk2 : k < env.rawdb.rows.length := hk
    have hcond1 : 0 ≤ (k : Int) ∧
        (k : Int).toNat < env.molindex.records.length := by omega
    have hcond2 : 0 ≤ (k : Int) ∧
        (k : Int).toNat < env.rawdb.rows.length := by omega
    have hr : MolIndex.get env.molindex (k : Int)
        = .ok (env.molindex.records.get ⟨(k : Int).toNat, hcond1.2⟩) :=
      dif_pos hcond1
    have hdb : RawStore.get env.rawdb (k : Int)
        = .ok (env.rawdb.rows.get ⟨(k : Int).toNat, hcond2.2⟩) :=
      dif_pos hcond2
    have hrowlen : (env.rawdb.rows.get ⟨(k : Int).toNat, hcond2.2⟩).length
        = env.rawdb.colnames.length :=
      hrows _ (List.get_mem _ _ _)
    have hsel := mapM_select (fun nm => !containsCalc nm)
      env.rawdb.colnames (env.rawdb.rows.get ⟨(k : Int).toNat, hcond2.2⟩)
      [] hrowlen
    simp only [List.nil_append, List.length_nil] at hsel
    have hgd : getDescriptors (openStore env) (k : Int) false
        = .ok (((env.rawdb.colnames.zip
            (env.rawdb.rows.get ⟨(k : Int).toNat, hcond2.2⟩)).filter
              (fun p => !containsCalc p.1)).map Prod.snd) := by
      simp only [getDescriptors, openStore_db, hdb,
        if_neg (by simp : ¬ false = true), openStore_dataindices, List.enum]
      exact hsel
    have hmg : MolIndex.get (openStore env).index (k : Int)
        = .ok (env.molindex.records.get ⟨(k : Int).toNat, hcond1.2⟩) := by
      rw [openStore_index]
      exact hr
    refine ⟨_, _, ?_, hmg, hgd⟩
    rw [iterResult_eq]
    have hne : ¬ ((k : Int) = (storeLen (openStore env) : Int)) := by
      simp only [storeLen_openStore]
      omega
    rw [if_neg hne]
    simp only [fetchPair, hmg, hgd]
  · rw [iterResult_eq]
    exact if_pos rfl
  · intro s2 k j e h
    rw [iterResult_eq] at h
    by_cases hc : (k : Int) = (storeLen s2 : Int)
    · rw [if_pos hc] at h
      simp at h
    · rw [if_neg hc] at h
      cases hf : fetchPair s2 (k : Int) with
      | ok p =>
        obtain ⟨r, v⟩ := p
        rw [hf] at h
        simp at h
      | error e2 =>
        rw [hf] at h
        injection h with h1 h2
        exact h1.symm

/-- Witness for C3 on the two-row store `envC5`. -/
theorem iteration_yields_all_witness :
    (∀ k, k < storeLen (openStore envC5) →
      ∃ r v, iterResult (openStore envC5) k = NextRes.yield r v ∧
        MolIndex.get (openStore envC5).index (k : Int) = .ok r ∧
        getDescriptors (openStore envC5) (k : Int) false = .ok v) ∧
    iterResult (openStore envC5) (storeLen (openStore envC5))
      = NextRes.stop ∧
    (∀ (s2 : DescriptaStore) (k : Nat) (j : Int) (e : PyErr),
      iterResult s2 k = NextRes.fail j e → j = (k : Int)) :=
  iteration_yields_all envC5 (by decide) (by decide)
